import Mathlib

/-!
Shallow embedding of `src/pick_node.rs`: a position-to-node resolver over a
parsed syntax tree.  Byte positions are `Nat`; hygiene contexts are `Nat`
(only equality of contexts is ever tested).  The operations of the external
`Span` type and of the external source map are not under `src/` and are
modelled from the spec, as marked on each; everything else is translated
from the source file.
-/

/-- A source span: a byte range tagged with a hygiene context
(`Span { lo, hi, ctxt }`). -/
structure Span where
  lo : Nat
  hi : Nat
  ctxt : Nat
deriving Repr, DecidableEq

/-- Modelled from the spec: `Span::contains` belongs to the external span
library, not to `src/`.  Per the spec a span contains a point `p` iff
`start ≤ p < end`; the walker's target is the degenerate span `[p, p)`
"treated as a point", so containment is stated against the point `p`. -/
def Span.contains (s : Span) (p : Nat) : Bool := decide (s.lo ≤ p ∧ p < s.hi)

/-- Modelled from the spec: `Span::to` of the external span library, the union
span "taking the lower of the two starts and the higher of the two ends".
The hygiene context of the union is not specified by the spec and is unused
by every claim; we keep the first span's. -/
def Span.to (s e : Span) : Span :=
  { lo := min s.lo e.lo, hi := max s.hi e.hi, ctxt := s.ctxt }

/-- Modelled from the spec: `Span::between` of the external span library, the
"gap strictly between whichever of the two spans comes first and the other
(inclusive of the gap's own bytes)": from the earlier end to the later start. -/
def Span.between (s e : Span) : Span :=
  { lo := min s.hi e.hi, hi := max s.lo e.lo, ctxt := s.ctxt }

/-- The category filter (`enum NodeKind`). -/
inductive NodeKind where
  | Any
  | ItemLike
  | Item
  | TraitItem
  | ImplItem
  | ForeignItem
  | Stmt
  | Expr
  | Pat
  | Ty
  | Arg
deriving Repr, DecidableEq, BEq

/-- Translation of `NodeKind::includes`. -/
def NodeKind.includes (self other : NodeKind) : Bool :=
  match self with
  | .Any => true
  | .ItemLike =>
    match other with
    | .Item | .TraitItem | .ImplItem | .ForeignItem => true
    | _ => false
  | _ => self == other

/-- Translation of `NodeKind::as_str`. -/
def NodeKind.as_str : NodeKind → String
  | .Any => "any"
  | .ItemLike => "itemlike"
  | .Item => "item"
  | .TraitItem => "trait_item"
  | .ImplItem => "impl_item"
  | .ForeignItem => "foreign_item"
  | .Stmt => "stmt"
  | .Expr => "expr"
  | .Pat => "pat"
  | .Ty => "ty"
  | .Arg => "arg"

/-- Translation of `<NodeKind as FromStr>::from_str` (`Err(())` on unknown
names). -/
def NodeKind.from_str (s : String) : Except Unit NodeKind :=
  match s with
  | "any" => .ok .Any
  | "itemlike" => .ok .ItemLike
  | "item" => .ok .Item
  | "trait_item" => .ok .TraitItem
  | "impl_item" => .ok .ImplItem
  | "foreign_item" => .ok .ForeignItem
  | "stmt" => .ok .Stmt
  | "expr" => .ok .Expr
  | "pat" => .ok .Pat
  | "ty" => .ok .Ty
  | "arg" => .ok .Arg
  | _ => .error ()

/-- The result type (`struct NodeInfo { id, span }`). -/
structure NodeInfo where
  id : Nat
  span : Span
deriving Repr, DecidableEq

/-- A function argument (`ast::Arg`): its own node id plus its pattern and
type sub-nodes, each a node id and a span.  Argument patterns and types are
leaves in this embedding. -/
structure Arg where
  id : Nat
  patId : Nat
  patSpan : Span
  tyId : Nat
  tySpan : Span
deriving Repr, DecidableEq

mutual
/-- The syntax-tree nodes the visitor distinguishes.  `item` stands for any
item that is neither a module nor a function; `modItem` carries the module
body's inner span; `fnItem` carries the function's arguments (whose visit
goes through `visit_fn`) and its body. -/
inductive Node where
  | item (id : Nat) (span : Span) (children : NodeList)
  | modItem (id : Nat) (span : Span) (inner : Span) (children : NodeList)
  | fnItem (id : Nat) (span : Span) (args : List Arg) (body : NodeList)
  | traitItem (id : Nat) (span : Span) (children : NodeList)
  | implItem (id : Nat) (span : Span) (children : NodeList)
  | foreignItem (id : Nat) (span : Span) (children : NodeList)
  | stmt (id : Nat) (span : Span) (children : NodeList)
  | expr (id : Nat) (span : Span) (children : NodeList)
  | pat (id : Nat) (span : Span) (children : NodeList)
  | ty (id : Nat) (span : Span) (children : NodeList)
  | mac (children : NodeList)

/-- Lists of sibling nodes, as a mutual inductive so that the visitor is
structurally recursive. -/
inductive NodeList where
  | nil
  | cons (head : Node) (tail : NodeList)
end

/-- The guarded test every `visit_*` method applies after recursing:
`if self.node_info.is_none() && self.kind.includes(cat) && span.contains(target)
{ self.node_info = Some(NodeInfo { id, span }) }`. -/
def ownTest (k : NodeKind) (p : Nat) (cat : NodeKind) (id : Nat) (span : Span)
    (st : Option NodeInfo) : Option NodeInfo :=
  if st.isNone && k.includes cat && span.contains p then
    some { id := id, span := span }
  else st

/-- The per-argument match test of `visit_fn` (pick_node.rs lines 117-120):
the point is in the type span, or in the pattern span, or the two spans share
a hygiene context and the point is in the span between them. -/
def argMatches (p : Nat) (a : Arg) : Bool :=
  a.tySpan.contains p || a.patSpan.contains p ||
  (a.tySpan.ctxt == a.patSpan.ctxt && (a.tySpan.between a.patSpan).contains p)

/-- The record written by the argument loop of `visit_fn`:
`NodeInfo { id: arg.id, span: arg.ty.span.to(arg.pat.span) }`. -/
def argRecord (a : Arg) : NodeInfo :=
  { id := a.id, span := a.tySpan.to a.patSpan }

/-- The argument loop of `visit_fn` (lines 116-126).  Note there is no
emptiness guard inside the loop: a later matching argument overwrites an
earlier one. -/
def argLoop (p : Nat) (args : List Arg) (st : Option NodeInfo) : Option NodeInfo :=
  args.foldl (fun acc a => if argMatches p a then some (argRecord a) else acc) st

/-- `walk_fn_decl`'s visit of one argument: its pattern as a `Pat` node, then
its type as a `Ty` node (leaves, so walking them visits nothing further). -/
def visitArgPT (k : NodeKind) (p : Nat) (a : Arg) (st : Option NodeInfo) : Option NodeInfo :=
  ownTest k p .Ty a.tyId a.tySpan (ownTest k p .Pat a.patId a.patSpan st)

/-- `walk_fn_decl` over all arguments, in declaration order. -/
def visitArgsPT (k : NodeKind) (p : Nat) (args : List Arg) (st : Option NodeInfo) :
    Option NodeInfo :=
  args.foldl (fun acc a => visitArgPT k p a acc) st

mutual
/-- The `PickVisitor` on one node: recurse into the children first
(`visit::walk_*`), then apply the node's own guarded test.  For `modItem`,
after the `Item` test comes the module special case (lines 38-44).  For
`fnItem`, `walk_item` routes through `visit_fn`: walk the argument patterns
and types and the body, then run the guarded argument loop (lines 114-127),
then apply the item's own `Item` test back in `visit_item`. -/
def visit (k : NodeKind) (p : Nat) (n : Node) (st : Option NodeInfo) : Option NodeInfo :=
  match n with
  | .item id span children =>
      ownTest k p .Item id span (visitList k p children st)
  | .modItem id span inner children =>
      let st1 := ownTest k p .Item id span (visitList k p children st)
      if st1.isNone && inner.contains p then some { id := id, span := span } else st1
  | .fnItem id span args body =>
      let st1 := visitList k p body (visitArgsPT k p args st)
      let st2 := if st1.isNone && k.includes .Arg then argLoop p args st1 else st1
      ownTest k p .Item id span st2
  | .traitItem id span children =>
      ownTest k p .TraitItem id span (visitList k p children st)
  | .implItem id span children =>
      ownTest k p .ImplItem id span (visitList k p children st)
  | .foreignItem id span children =>
      ownTest k p .ForeignItem id span (visitList k p children st)
  | .stmt id span children =>
      ownTest k p .Stmt id span (visitList k p children st)
  | .expr id span children =>
      ownTest k p .Expr id span (visitList k p children st)
  | .pat id span children =>
      ownTest k p .Pat id span (visitList k p children st)
  | .ty id span children =>
      ownTest k p .Ty id span (visitList k p children st)
  | .mac children =>
      visitList k p children st

/-- The walk over a list of sibling nodes, left to right, threading the slot. -/
def visitList (k : NodeKind) (p : Nat) (ns : NodeList) (st : Option NodeInfo) : Option NodeInfo :=
  match ns with
  | .nil => st
  | .cons n rest => visitList k p rest (visit k p n st)
end

/-- The crate root (`ast::Crate`): its top-level module's inner span, the
module's items, and the crate's overall span. -/
structure Crate where
  moduleInner : Span
  items : NodeList
  span : Span

/-- Translation of `CRATE_NODE_ID`, the reserved root identity. -/
def CRATE_NODE_ID : Nat := 0

/-- Translation of `pick_node`: run the visitor with an empty slot over the
crate's items, then apply the root fallback (lines 217-221): if the slot is
still empty and the crate module's inner span contains the point, record the
crate itself. -/
def pick_node (krate : Crate) (kind : NodeKind) (pos : Nat) : Option NodeInfo :=
  match visitList kind pos krate.items none with
  | none =>
      if krate.moduleInner.contains pos then
        some { id := CRATE_NODE_ID, span := krate.span }
      else none
  | some i => some i

/-- The error taxonomy of the spec (section 7); the source surfaces each as a
terminating failure (panic / unwrap). -/
inductive PickError where
  | UnknownFile
  | LineOutOfRange
  | ColumnOutOfRange
  | UnknownCategory
deriving Repr, DecidableEq

/-- Modelled from the spec: the external source map (`codemap`), which is not
under `src/`.  A file map is its list of line bounds
(`line_bounds(i) -> (startOffset, endOffset)`). -/
structure FileMap where
  lineBounds : List (Nat × Nat)

/-- Modelled from the spec: the source map, a table from file names to file
maps (`get_filemap`). -/
structure SourceMap where
  files : List (String × FileMap)

/-- Lookup of a file map by name, `None` when the file has no entry. -/
def SourceMap.get_filemap (sm : SourceMap) (file : String) : Option FileMap :=
  (sm.files.find? (fun e => e.1 == file)).map (fun e => e.2)

/-- Translation of `pick_node_at_loc`, with the panics rendered as the spec's
error conditions: `UnknownFile` when the file has no entry; `LineOutOfRange`
when `line == 0 || line - 1 >= lines.len()`; `ColumnOutOfRange` when
`col >= hi - lo` for the line's bounds `(lo, hi)`; otherwise the position
`lo + col` is handed to `pick_node`. -/
def pick_node_at_loc (krate : Crate) (sm : SourceMap) (kind : NodeKind)
    (file : String) (line col : Nat) : Except PickError (Option NodeInfo) :=
  match sm.get_filemap file with
  | none => .error .UnknownFile
  | some fm =>
    if h : line = 0 ∨ fm.lineBounds.length ≤ line - 1 then .error .LineOutOfRange
    else
      let b := fm.lineBounds.get ⟨line - 1, by omega⟩
      if b.2 - b.1 ≤ col then .error .ColumnOutOfRange
      else .ok (pick_node krate kind (b.1 + col))

/-- Translation of `pick_node_command`: parse the category name first
(`NodeKind::from_str(&args[0]).unwrap()`, the unwrap panic rendered as
`UnknownCategory`), then resolve the location.  Numeric argument parsing is
taken as already done (the command surface is out of scope per the spec). -/
def pick_node_command (krate : Crate) (sm : SourceMap) (kindStr : String)
    (file : String) (line col : Nat) : Except PickError (Option NodeInfo) :=
  match NodeKind.from_str kindStr with
  | .error _ => .error .UnknownCategory
  | .ok kind => pick_node_at_loc krate sm kind file line col

/-! ## Auxiliary predicates over the tree -/

/-- Whether node `n`'s own guarded test would succeed on an empty slot: the
filter includes `n`'s category and `n`'s own (declaration) span contains the
point.  A macro invocation has no category and never matches. -/
def selfMatch (k : NodeKind) (p : Nat) : Node → Bool
  | .item _ span _ => k.includes .Item && span.contains p
  | .modItem _ span _ _ => k.includes .Item && span.contains p
  | .fnItem _ span _ _ => k.includes .Item && span.contains p
  | .traitItem _ span _ => k.includes .TraitItem && span.contains p
  | .implItem _ span _ => k.includes .ImplItem && span.contains p
  | .foreignItem _ span _ => k.includes .ForeignItem && span.contains p
  | .stmt _ span _ => k.includes .Stmt && span.contains p
  | .expr _ span _ => k.includes .Expr && span.contains p
  | .pat _ span _ => k.includes .Pat && span.contains p
  | .ty _ span _ => k.includes .Ty && span.contains p
  | .mac _ => false

/-- The structural children a node's walk recurses into (for a function item,
its body list; the argument sub-nodes are walked by `visitArgsPT`). -/
def childrenOf : Node → NodeList
  | .item _ _ c => c
  | .modItem _ _ _ c => c
  | .fnItem _ _ _ body => body
  | .traitItem _ _ c => c
  | .implItem _ _ c => c
  | .foreignItem _ _ c => c
  | .stmt _ _ c => c
  | .expr _ _ c => c
  | .pat _ _ c => c
  | .ty _ _ c => c
  | .mac c => c

/-- Membership in a node list. -/
inductive MemNL : Node → NodeList → Prop where
  | head (n : Node) (t : NodeList) : MemNL n (.cons n t)
  | tail (n m : Node) (t : NodeList) : MemNL n t → MemNL n (.cons m t)

/-- Strict structural containment: `SubNode b a` holds when `b` lies somewhere
inside the subtree spanned by `a`'s structural children. -/
inductive SubNode : Node → Node → Prop where
  | child (b a : Node) : MemNL b (childrenOf a) → SubNode b a
  | trans (b c a : Node) : SubNode b c → MemNL c (childrenOf a) → SubNode b a

/-- The walk of `n`'s subtree only, before any of `n`'s own tests fire (for a
function item this covers its arguments' pattern and type sub-nodes and its
body, but not the argument loop and not the final item test). -/
def preOwn (k : NodeKind) (p : Nat) (n : Node) (st : Option NodeInfo) : Option NodeInfo :=
  match n with
  | .fnItem _ _ args body => visitList k p body (visitArgsPT k p args st)
  | m => visitList k p (childrenOf m) st

/-- The last argument of the list that matches the point, in declaration
order (the candidate the unguarded loop leaves in the slot). -/
def lastArgMatch (p : Nat) (args : List Arg) : Option Arg :=
  args.reverse.find? (argMatches p)

/-- Follows the spec's words (section 4.3), for comparison with the code's
`argMatches`: the gap between whichever of the two spans comes first in the
source (the one with the lower start) and the other: from the first span's
end to the second span's start. -/
def specGap (x y : Span) : Span :=
  if x.lo ≤ y.lo then { lo := x.hi, hi := y.lo, ctxt := x.ctxt }
  else { lo := y.hi, hi := x.lo, ctxt := x.ctxt }

/-- Follows the spec's words (section 4.3), for comparison with the code's
`argMatches`: the parameter matches if the target point lies in the pattern
span `P`, or in the type span `T`, or in the gap strictly between whichever
of `P`/`T` comes first and the other, provided `P` and `T` share the same
hygiene context. -/
def specParamMatches (p : Nat) (a : Arg) : Bool :=
  a.patSpan.contains p || a.tySpan.contains p ||
  (a.patSpan.ctxt == a.tySpan.ctxt && (specGap a.patSpan a.tySpan).contains p)

/-! ## Demonstration data for witnesses and counterexamples -/

/-- A function argument whose pattern covers bytes 10-11 and type bytes
14-16, all in the unexpanded hygiene context. -/
def demoArgA : Arg :=
  { id := 4, patId := 40, patSpan := { lo := 10, hi := 12, ctxt := 0 },
    tyId := 41, tySpan := { lo := 14, hi := 17, ctxt := 0 } }

/-- A second argument covering the same bytes as `demoArgA` (legal data for
the embedding, exercising the two-matching-parameters case). -/
def demoArgB : Arg :=
  { id := 5, patId := 50, patSpan := { lo := 10, hi := 12, ctxt := 0 },
    tyId := 51, tySpan := { lo := 14, hi := 17, ctxt := 0 } }

/-- A function item with the two demonstration arguments and no body. -/
def demoTwoArgFn : Node :=
  .fnItem 9 { lo := 0, hi := 30, ctxt := 0 } [demoArgA, demoArgB] .nil

/-- A crate holding only `demoTwoArgFn`. -/
def demoTwoArgCrate : Crate :=
  { moduleInner := { lo := 0, hi := 100, ctxt := 0 },
    items := .cons demoTwoArgFn .nil,
    span := { lo := 0, hi := 100, ctxt := 0 } }

/-- An arbitrary already-recorded result. -/
def demoInfo : NodeInfo := { id := 99, span := { lo := 1, hi := 2, ctxt := 3 } }

/-- An expression node at bytes 5-9. -/
def demoExprC : Node := .expr 12 { lo := 5, hi := 10, ctxt := 0 } .nil

/-- A statement node at bytes 2-17 containing `demoExprC`. -/
def demoStmtB : Node := .stmt 11 { lo := 2, hi := 18, ctxt := 0 } (.cons demoExprC .nil)

/-- A function item at bytes 0-19 whose body holds `demoStmtB`. -/
def demoFnA : Node := .fnItem 10 { lo := 0, hi := 20, ctxt := 0 } [] (.cons demoStmtB .nil)

/-- A crate holding only the `demoFnA` chain. -/
def demoChainCrate : Crate :=
  { moduleInner := { lo := 0, hi := 100, ctxt := 0 },
    items := .cons demoFnA .nil,
    span := { lo := 0, hi := 100, ctxt := 0 } }

/-- A crate with no items at all. -/
def demoEmptyCrate : Crate :=
  { moduleInner := { lo := 0, hi := 10, ctxt := 0 },
    items := .nil,
    span := { lo := 0, hi := 12, ctxt := 0 } }

/-- A source map with one file of two lines: bytes 0-9 and 10-24. -/
def demoSM : SourceMap :=
  { files := [("f.rs", { lineBounds := [(0, 10), (10, 25)] })] }

/-! ## Slot preservation: a filled slot is left untouched by every guarded
test and every further visit -/

theorem ownTest_some (k : NodeKind) (p : Nat) (c : NodeKind) (id : Nat) (s : Span)
    (i : NodeInfo) : ownTest k p c id s (some i) = some i := by
  simp [ownTest]

theorem visitArgPT_some (k : NodeKind) (p : Nat) (a : Arg) (i : NodeInfo) :
    visitArgPT k p a (some i) = some i := by
  simp [visitArgPT, ownTest_some]

theorem visitArgsPT_some (k : NodeKind) (p : Nat) (args : List Arg) (i : NodeInfo) :
    visitArgsPT k p args (some i) = some i := by
  induction args with
  | nil => rfl
  | cons a rest ih =>
      show visitArgsPT k p rest (visitArgPT k p a (some i)) = some i
      rw [visitArgPT_some]
      exact ih

mutual
theorem visit_some (k : NodeKind) (p : Nat) (n : Node) (i : NodeInfo) :
    visit k p n (some i) = some i :=
  match n with
  | .item id span children => by
      have h := visitList_some k p children i
      simp only [visit]
      rw [h, ownTest_some]
  | .modItem id span inner children => by
      have h := visitList_some k p children i
      simp only [visit]
      rw [h, ownTest_some]
      simp
  | .fnItem id span args body => by
      have h2 := visitList_some k p body i
      simp only [visit]
      rw [visitArgsPT_some, h2]
      simp [ownTest_some]
  | .traitItem id span children => by
      have h := visitList_some k p children i
      simp only [visit]
      rw [h, ownTest_some]
  | .implItem id span children => by
      have h := visitList_some k p children i
      simp only [visit]
      rw [h, ownTest_some]
  | .foreignItem id span children => by
      have h := visitList_some k p children i
      simp only [visit]
      rw [h, ownTest_some]
  | .stmt id span children => by
      have h := visitList_some k p children i
      simp only [visit]
      rw [h, ownTest_some]
  | .expr id span children => by
      have h := visitList_some k p children i
      simp only [visit]
      rw [h, ownTest_some]
  | .pat id span children => by
      have h := visitList_some k p children i
      simp only [visit]
      rw [h, ownTest_some]
  | .ty id span children => by
      have h := visitList_some k p children i
      simp only [visit]
      rw [h, ownTest_some]
  | .mac children => by
      have h := visitList_some k p children i
      simp only [visit]
      exact h

theorem visitList_some (k : NodeKind) (p : Nat) (ns : NodeList) (i : NodeInfo) :
    visitList k p ns (some i) = some i :=
  match ns with
  | .nil => by simp [visitList]
  | .cons n rest => by
      have h1 := visit_some k p n i
      have h2 := visitList_some k p rest i
      simp only [visitList]
      rw [h1]
      exact h2
end

/-! ## A matching node always leaves the slot filled -/

theorem ownTest_isSome_of (k : NodeKind) (p : Nat) (c : NodeKind) (id : Nat) (s : Span)
    (h : (k.includes c && s.contains p) = true) (st : Option NodeInfo) :
    (ownTest k p c id s st).isSome = true := by
  rw [Bool.and_eq_true] at h
  cases st with
  | none => simp [ownTest, h.1, h.2]
  | some i => rw [ownTest_some]; rfl

theorem isSome_ite_slot (b : Bool) (j : NodeInfo) (st : Option NodeInfo)
    (h : st.isSome = true) :
    (if st.isNone && b then some j else st).isSome = true := by
  cases st with
  | none => simp at h
  | some i => simp

theorem selfMatch_isSome (k : NodeKind) (p : Nat) (n : Node)
    (h : selfMatch k p n = true) (st : Option NodeInfo) :
    (visit k p n st).isSome = true := by
  cases n with
  | item id span children =>
      simp only [selfMatch] at h
      simp only [visit]; exact ownTest_isSome_of k p _ id span h _
  | modItem id span inner children =>
      simp only [selfMatch] at h
      simp only [visit]
      exact isSome_ite_slot _ _ _ (ownTest_isSome_of k p _ id span h _)
  | fnItem id span args body =>
      simp only [selfMatch] at h
      simp only [visit]; exact ownTest_isSome_of k p _ id span h _
  | traitItem id span children =>
      simp only [selfMatch] at h
      simp only [visit]; exact ownTest_isSome_of k p _ id span h _
  | implItem id span children =>
      simp only [selfMatch] at h
      simp only [visit]; exact ownTest_isSome_of k p _ id span h _
  | foreignItem id span children =>
      simp only [selfMatch] at h
      simp only [visit]; exact ownTest_isSome_of k p _ id span h _
  | stmt id span children =>
      simp only [selfMatch] at h
      simp only [visit]; exact ownTest_isSome_of k p _ id span h _
  | expr id span children =>
      simp only [selfMatch] at h
      simp only [visit]; exact ownTest_isSome_of k p _ id span h _
  | pat id span children =>
      simp only [selfMatch] at h
      simp only [visit]; exact ownTest_isSome_of k p _ id span h _
  | ty id span children =>
      simp only [selfMatch] at h
      simp only [visit]; exact ownTest_isSome_of k p _ id span h _
  | mac children => simp [selfMatch] at h

theorem mem_visit_forces (k : NodeKind) (p : Nat) (c : Node) (ns : NodeList)
    (hmem : MemNL c ns) (hc : ∀ st, (visit k p c st).isSome = true) :
    ∀ st, (visitList k p ns st).isSome = true := by
  induction hmem with
  | head t =>
      intro st
      obtain ⟨j, hj⟩ := Option.isSome_iff_exists.mp (hc st)
      simp only [visitList]
      rw [hj, visitList_some]
      rfl
  | tail m t _ ih =>
      intro st
      simp only [visitList]
      exact ih (visit k p m st)

theorem mem_selfMatch_forces (k : NodeKind) (p : Nat) (b : Node) (ns : NodeList)
    (hmem : MemNL b ns) (hb : selfMatch k p b = true) :
    ∀ st, (visitList k p ns st).isSome = true :=
  mem_visit_forces k p b ns hmem (selfMatch_isSome k p b hb)

/-! ## The pre-own-test walk decides the visit once it fills the slot -/

theorem preOwn_as_visitList (k : NodeKind) (p : Nat) (n : Node) (st : Option NodeInfo) :
    ∃ st0, preOwn k p n st = visitList k p (childrenOf n) st0 := by
  cases n with
  | fnItem id span args body => exact ⟨visitArgsPT k p args st, rfl⟩
  | item id span children => exact ⟨st, rfl⟩
  | modItem id span inner children => exact ⟨st, rfl⟩
  | traitItem id span children => exact ⟨st, rfl⟩
  | implItem id span children => exact ⟨st, rfl⟩
  | foreignItem id span children => exact ⟨st, rfl⟩
  | stmt id span children => exact ⟨st, rfl⟩
  | expr id span children => exact ⟨st, rfl⟩
  | pat id span children => exact ⟨st, rfl⟩
  | ty id span children => exact ⟨st, rfl⟩
  | mac children => exact ⟨st, rfl⟩

theorem preOwn_eq_visit (k : NodeKind) (p : Nat) (n : Node) (st : Option NodeInfo)
    (h : (preOwn k p n st).isSome = true) : visit k p n st = preOwn k p n st := by
  obtain ⟨j, hj⟩ := Option.isSome_iff_exists.mp h
  cases n with
  | item id span children =>
      simp only [preOwn, childrenOf] at hj
      simp only [visit]
      rw [hj, ownTest_some]
      simpa [preOwn, childrenOf] using hj.symm
  | modItem id span inner children =>
      simp only [preOwn, childrenOf] at hj
      simp only [visit]
      rw [hj, ownTest_some]
      simpa [preOwn, childrenOf] using hj.symm
  | fnItem id span args body =>
      simp only [preOwn] at hj
      simp only [visit]
      rw [hj]
      simp only [Option.isNone_some, Bool.false_and, if_false, ownTest_some]
      simpa [preOwn] using hj.symm
  | traitItem id span children =>
      simp only [preOwn, childrenOf] at hj
      simp only [visit]
      rw [hj, ownTest_some]
      simpa [preOwn, childrenOf] using hj.symm
  | implItem id span children =>
      simp only [preOwn, childrenOf] at hj
      simp only [visit]
      rw [hj, ownTest_some]
      simpa [preOwn, childrenOf] using hj.symm
  | foreignItem id span children =>
      simp only [preOwn, childrenOf] at hj
      simp only [visit]
      rw [hj, ownTest_some]
      simpa [preOwn, childrenOf] using hj.symm
  | stmt id span children =>
      simp only [preOwn, childrenOf] at hj
      simp only [visit]
      rw [hj, ownTest_some]
      simpa [preOwn, childrenOf] using hj.symm
  | expr id span children =>
      simp only [preOwn, childrenOf] at hj
      simp only [visit]
      rw [hj, ownTest_some]
      simpa [preOwn, childrenOf] using hj.symm
  | pat id span children =>
      simp only [preOwn, childrenOf] at hj
      simp only [visit]
      rw [hj, ownTest_some]
      simpa [preOwn, childrenOf] using hj.symm
  | ty id span children =>
      simp only [preOwn, childrenOf] at hj
      simp only [visit]
      rw [hj, ownTest_some]
      simpa [preOwn, childrenOf] using hj.symm
  | mac children =>
      simp only [visit, preOwn, childrenOf]

theorem sub_forces (k : NodeKind) (p : Nat) (b a : Node) (hsub : SubNode b a)
    (hb : selfMatch k p b = true) :
    ∀ st, (preOwn k p a st).isSome = true := by
  induction hsub with
  | child a hmem =>
      intro st
      obtain ⟨st0, h0⟩ := preOwn_as_visitList k p a st
      rw [h0]
      exact mem_selfMatch_forces k p b (childrenOf a) hmem hb st0
  | trans c a _ hmem ih =>
      intro st
      obtain ⟨st0, h0⟩ := preOwn_as_visitList k p a st
      rw [h0]
      refine mem_visit_forces k p c (childrenOf a) hmem (fun st1 => ?_) st0
      rw [preOwn_eq_visit k p c st1 (ih st1)]
      exact ih st1

/-! ## The argument loop records the last matching argument -/

theorem argLoop_eq (p : Nat) (args : List Arg) (st : Option NodeInfo) :
    argLoop p args st =
      match lastArgMatch p args with
      | some a => some (argRecord a)
      | none => st := by
  induction args generalizing st with
  | nil => rfl
  | cons a rest ih =>
      show argLoop p rest (if argMatches p a then some (argRecord a) else st) = _
      rw [ih]
      rcases h : lastArgMatch p rest with _ | b
      · unfold lastArgMatch at *
        by_cases hm : argMatches p a
        · simp [List.find?_append, h, hm]
        · simp [List.find?_append, h, hm]
      · unfold lastArgMatch at *
        simp [List.find?_append, h]

/-! ## Claims -/

/-- C8: the category inclusion relation: `Any` includes every category;
`ItemLike` includes exactly `Item`, `TraitItem`, `ImplItem` and
`ForeignItem`; and a concrete (non-aggregate) filter includes exactly
itself. -/
theorem claim_C8_includes (c d : NodeKind) :
    NodeKind.includes .Any d = true ∧
    (NodeKind.includes .ItemLike d = true ↔
      (d = .Item ∨ d = .TraitItem ∨ d = .ImplItem ∨ d = .ForeignItem)) ∧
    (c ≠ .Any → c ≠ .ItemLike → (NodeKind.includes c d = true ↔ d = c)) := by
  cases c <;> cases d <;> decide

/-- Witness for C8 at the concrete filter `Stmt` and category `Stmt`. -/
theorem claim_C8_includes_witness :
    NodeKind.includes .Stmt .Stmt = true ↔ (NodeKind.Stmt = NodeKind.Stmt) :=
  (claim_C8_includes .Stmt .Stmt).2.2 (by decide) (by decide)

/-- C9: a category name matching none of the eleven recognized names fails to
parse, and the command then reports the unknown-category condition without
traversing: the result is the same error for every crate and source map. -/
theorem claim_C9_unknown_category (s : String)
    (h : s ∉ ["any", "itemlike", "item", "trait_item", "impl_item",
              "foreign_item", "stmt", "expr", "pat", "ty", "arg"]) :
    NodeKind.from_str s = .error () ∧
    ∀ (krate : Crate) (sm : SourceMap) (file : String) (line col : Nat),
      pick_node_command krate sm s file line col = .error .UnknownCategory := by
  simp only [List.mem_cons, List.not_mem_nil, or_false, not_or] at h
  have hf : NodeKind.from_str s = .error () := by
    unfold NodeKind.from_str
    split <;> simp_all
  refine ⟨hf, fun krate sm file line col => ?_⟩
  simp [pick_node_command, hf]

/-- Witness for C9 at the name `"bogus"`. -/
theorem claim_C9_unknown_category_witness :
    NodeKind.from_str "bogus" = .error () ∧
    pick_node_command demoEmptyCrate demoSM "bogus" "f.rs" 1 0 =
      .error .UnknownCategory := by
  have h := claim_C9_unknown_category "bogus" (by decide)
  exact ⟨h.1, h.2 demoEmptyCrate demoSM "f.rs" 1 0⟩

/-- C10: the name table is a bijection: rendering a `NodeKind` and parsing it
back yields the same value, and whenever parsing succeeds the rendered name
of the result is the parsed text. -/
theorem claim_C10_roundtrip (s : String) (k : NodeKind) :
    NodeKind.from_str (NodeKind.as_str k) = .ok k ∧
    (NodeKind.from_str s = .ok k → NodeKind.as_str k = s) := by
  constructor
  · cases k <;> rfl
  · intro h
    unfold NodeKind.from_str at h
    split at h
    all_goals first
      | (injection h with h; subst h; rfl)
      | exact Except.noConfusion h

/-- Witness for C10 at the value `Ty` and the name `"ty"`. -/
theorem claim_C10_roundtrip_witness :
    NodeKind.from_str "ty" = .ok NodeKind.Ty ∧ NodeKind.as_str .Ty = "ty" :=
  ⟨(claim_C10_roundtrip "ty" .Ty).1,
   (claim_C10_roundtrip "ty" .Ty).2 (claim_C10_roundtrip "ty" .Ty).1⟩

/-- C5: root fallback: when the walker finishes with an empty slot, the
resolver returns the reserved root identity with the whole-tree span if the
crate module's inner span contains the point, and the empty result if the
point lies outside that whole-source extent. -/
theorem claim_C5_root_fallback (krate : Crate) (kind : NodeKind) (pos : Nat)
    (hempty : visitList kind pos krate.items none = none) :
    (krate.moduleInner.contains pos = true →
      pick_node krate kind pos = some { id := CRATE_NODE_ID, span := krate.span }) ∧
    (krate.moduleInner.contains pos = false →
      pick_node krate kind pos = none) := by
  constructor <;> intro h <;> simp [pick_node, hempty, h]

/-- Witness for C5 on the empty crate: position 5 lies inside the module's
inner span and resolves to the root; position 50 lies outside and resolves to
nothing. -/
theorem claim_C5_root_fallback_witness :
    pick_node demoEmptyCrate .Any 5 =
      some { id := CRATE_NODE_ID, span := demoEmptyCrate.span } ∧
    pick_node demoEmptyCrate .Any 50 = none :=
  ⟨(claim_C5_root_fallback demoEmptyCrate .Any 5 rfl).1 (by decide),
   (claim_C5_root_fallback demoEmptyCrate .Any 50 rfl).2 (by decide)⟩

/-- C3: the module special case: when the slot is still empty after the
module item's own `Item` test (here: the test could not fire, because the
filter excludes `Item` or the declaration span misses the point, and the
children produced nothing) and the module's inner span contains the point,
the slot is filled with the module item's identity and its declaration
span. -/
theorem claim_C3_module_fallback (k : NodeKind) (p : Nat) (id : Nat)
    (span inner : Span) (children : NodeList)
    (hchild : visitList k p children none = none)
    (hown : k.includes .Item = false ∨ span.contains p = false)
    (hinner : inner.contains p = true) :
    visit k p (.modItem id span inner children) none =
      some { id := id, span := span } := by
  simp only [visit]
  rw [hchild]
  have hot : ownTest k p .Item id span none = none := by
    rcases hown with h | h <;> simp [ownTest, h]
  rw [hot]
  simp [hinner]

/-- Witness for C3: the filter excludes `Item` (it asks for expressions) and
the declaration span (bytes 0-4) misses the point 150, yet the inner span
(bytes 100-199) contains it, so the module item is recorded with its
declaration span. -/
theorem claim_C3_module_fallback_witness :
    visit .Expr 150
      (.modItem 7 { lo := 0, hi := 5, ctxt := 0 }
        { lo := 100, hi := 200, ctxt := 0 } .nil) none =
      some { id := 7, span := { lo := 0, hi := 5, ctxt := 0 } } :=
  claim_C3_module_fallback .Expr 150 7 _ _ .nil rfl (Or.inl (by decide)) (by decide)

/-- Counterexample to C1 as stated: both demonstration arguments match the
point 11, yet the recorded result carries the second argument's identity
(id 5) and not the first's (id 4) — the loop has no emptiness guard, so the
slot filled by the first match is overwritten by the second. -/
theorem claim_C1_counterexample :
    argMatches 11 demoArgA = true ∧ argMatches 11 demoArgB = true ∧
    demoArgA.id = 4 ∧
    pick_node demoTwoArgCrate .Arg 11 =
      some { id := 5, span := { lo := 10, hi := 17, ctxt := 0 } } ∧
    pick_node demoTwoArgCrate .Arg 11 ≠ some (argRecord demoArgA) := by
  refine ⟨by decide, by decide, by decide, by decide, by decide⟩

/-- C1 (amended): outside the parameter loop the slot, once filled, is never
overwritten — a visit entered with a filled slot returns it unchanged; inside
the parameter loop a later matching parameter overwrites an earlier match, so
the last matching parameter in declaration order is the one recorded. -/
theorem claim_C1_slot_discipline (k : NodeKind) (q : Nat) (n : Node) (i : NodeInfo)
    (p : Nat) (args : List Arg) (a : Arg)
    (hlast : lastArgMatch p args = some a) :
    visit k q n (some i) = some i ∧ argLoop p args none = some (argRecord a) := by
  refine ⟨visit_some k q n i, ?_⟩
  rw [argLoop_eq, hlast]

/-- Witness for the amended C1 on the two-argument demonstration function:
the filled slot survives a further visit, and the loop records the second
(last matching) argument. -/
theorem claim_C1_slot_discipline_witness :
    visit .Arg 11 demoTwoArgFn (some demoInfo) = some demoInfo ∧
    argLoop 11 [demoArgA, demoArgB] none = some (argRecord demoArgB) :=
  claim_C1_slot_discipline .Arg 11 demoTwoArgFn demoInfo 11
    [demoArgA, demoArgB] demoArgB (by decide)

/-- C2: whatever the parameter loop records comes from a matching argument of
the list, carries that argument's identity, and its span is the union of the
argument's pattern span and type span — lower of the two starts, higher of
the two ends, independently of which comes first. -/
theorem claim_C2_union_span (p : Nat) (args : List Arg) (info : NodeInfo)
    (h : argLoop p args none = some info) :
    ∃ a, a ∈ args ∧ argMatches p a = true ∧ info.id = a.id ∧
      info.span.lo = min a.patSpan.lo a.tySpan.lo ∧
      info.span.hi = max a.patSpan.hi a.tySpan.hi := by
  rw [argLoop_eq] at h
  rcases hf : lastArgMatch p args with _ | a
  · rw [hf] at h
    exact Option.noConfusion h
  · rw [hf] at h
    have hrec : argRecord a = info := Option.some.injEq _ _ ▸ h
    refine ⟨a, ?_, ?_, ?_, ?_, ?_⟩
    · exact List.mem_reverse.mp (List.mem_of_find?_eq_some hf)
    · exact List.find?_some hf
    · rw [← hrec]; rfl
    · rw [← hrec]; simp [argRecord, Span.to, Nat.min_comm]
    · rw [← hrec]; simp [argRecord, Span.to, Nat.max_comm]

/-- Witness for C2 on the two-argument demonstration list. -/
theorem claim_C2_union_span_witness :
    ∃ a, a ∈ [demoArgA, demoArgB] ∧ argMatches 11 a = true ∧
      (argRecord demoArgB).id = a.id ∧
      (argRecord demoArgB).span.lo = min a.patSpan.lo a.tySpan.lo ∧
      (argRecord demoArgB).span.hi = max a.patSpan.hi a.tySpan.hi :=
  claim_C2_union_span 11 [demoArgA, demoArgB] (argRecord demoArgB) (by decide)

/-- Counterexample to C4 as stated: in the demonstration chain the function
item strictly contains the statement, both are included by the `Any` filter
and both spans contain the point 7, yet the resolver does not return the
statement: the expression nested deeper inside it wins. -/
theorem claim_C4_counterexample :
    SubNode demoStmtB demoFnA ∧
    selfMatch .Any 7 demoFnA = true ∧ selfMatch .Any 7 demoStmtB = true ∧
    pick_node demoChainCrate .Any 7 =
      some { id := 12, span := { lo := 5, hi := 10, ctxt := 0 } } ∧
    pick_node demoChainCrate .Any 7 ≠
      some { id := 11, span := { lo := 2, hi := 18, ctxt := 0 } } := by
  refine ⟨SubNode.child _ _ (MemNL.head _ _), by decide, by decide, by decide, by decide⟩

/-- C4 (amended): given nested nodes `A` strictly containing `B`, both
included by the filter and both containing the point, none of `A`'s own tests
can fire: the walk of `A`'s subtree already fills the slot, so visiting `A`
returns exactly what that walk produced — the deepest match reached first in
post order (`B` or a node deeper still), never a record made by `A` itself. -/
theorem claim_C4_depth_priority (k : NodeKind) (p : Nat) (A B : Node)
    (st : Option NodeInfo) (hsub : SubNode B A)
    (_hA : selfMatch k p A = true) (hB : selfMatch k p B = true) :
    (preOwn k p A st).isSome = true ∧ visit k p A st = preOwn k p A st := by
  have hforce := sub_forces k p B A hsub hB st
  exact ⟨hforce, preOwn_eq_visit k p A st hforce⟩

/-- Witness for the amended C4 on the demonstration chain. -/
theorem claim_C4_depth_priority_witness :
    (preOwn .Any 7 demoFnA none).isSome = true ∧
    visit .Any 7 demoFnA none = preOwn .Any 7 demoFnA none :=
  claim_C4_depth_priority .Any 7 demoFnA demoStmtB none
    (SubNode.child _ _ (MemNL.head _ _)) (by decide) (by decide)

/-- C6: for proper spans (start at most end, as the spec's data model
requires of byte ranges), the code's per-parameter test agrees exactly with
the spec's formulation: the point lies in the pattern span, or in the type
span, or in the gap between whichever of the two comes first and the other —
the gap case only when both spans share the same hygiene context, so a point
in the gap with differing contexts does not match via the gap rule. -/
theorem claim_C6_param_match (p : Nat) (a : Arg)
    (hpat : a.patSpan.lo ≤ a.patSpan.hi) (hty : a.tySpan.lo ≤ a.tySpan.hi) :
    (argMatches p a = true) ↔ (specParamMatches p a = true) := by
  rcases a with ⟨id, patId, ⟨pl, ph, pc⟩, tyId, ⟨tl, th, tc⟩⟩
  simp only [argMatches, specParamMatches, specGap, Span.between, Span.contains,
    Bool.or_eq_true, Bool.and_eq_true, beq_iff_eq, decide_eq_true_eq] at *
  split_ifs with hle
  · simp only [Span.contains, decide_eq_true_eq]
    omega
  · simp only [Span.contains, decide_eq_true_eq]
    omega

/-- Witness for C6 at point 13, on the colon-gap between the demonstration
argument's pattern (bytes 10-11) and type (bytes 14-16). -/
theorem claim_C6_param_match_witness :
    (argMatches 13 demoArgA = true) ↔ (specParamMatches 13 demoArgA = true) :=
  claim_C6_param_match 13 demoArgA (by decide) (by decide)

/-- C7: position translation: an unknown file yields the unknown-file
condition; a line of zero or beyond the file's line count yields the
line-out-of-range condition; a column at or beyond the line's byte length
yields the column-out-of-range condition; otherwise the byte offset handed to
the walker is the line's starting offset plus the column. -/
theorem claim_C7_position_translation (krate : Crate) (sm : SourceMap)
    (kind : NodeKind) (file : String) (line col : Nat) :
    (sm.get_filemap file = none →
      pick_node_at_loc krate sm kind file line col = .error .UnknownFile) ∧
    (∀ fm, sm.get_filemap file = some fm →
      ((line = 0 ∨ fm.lineBounds.length < line) →
        pick_node_at_loc krate sm kind file line col = .error .LineOutOfRange) ∧
      (∀ lo hi, ¬(line = 0 ∨ fm.lineBounds.length < line) →
        fm.lineBounds.get? (line - 1) = some (lo, hi) →
        ((hi - lo ≤ col →
          pick_node_at_loc krate sm kind file line col = .error .ColumnOutOfRange) ∧
         (col < hi - lo →
          pick_node_at_loc krate sm kind file line col =
            .ok (pick_node krate kind (lo + col)))))) := by
  refine ⟨fun hnone => ?_, fun fm hsome => ⟨fun hline => ?_, fun lo hi hok hget => ?_⟩⟩
  · simp [pick_node_at_loc, hnone]
  · have hcond : line = 0 ∨ fm.lineBounds.length ≤ line - 1 := by omega
    simp [pick_node_at_loc, hsome, hcond]
  · have hcond : ¬(line = 0 ∨ fm.lineBounds.length ≤ line - 1) := by omega
    have hlt : line - 1 < fm.lineBounds.length := by omega
    have hgetv : fm.lineBounds.get ⟨line - 1, hlt⟩ = (lo, hi) := by
      have := List.get?_eq_get hlt
      rw [hget] at this
      exact (Option.some.injEq _ _ ▸ this.symm)
    constructor <;> intro hcol
    · simp only [pick_node_at_loc, hsome]
      rw [dif_neg hcond]
      simp only [hgetv]
      rw [if_pos hcol]
    · simp only [pick_node_at_loc, hsome]
      rw [dif_neg hcond]
      simp only [hgetv]
      rw [if_neg (by omega)]

/-- Witness for C7 on the demonstration source map: an unknown file, line 0,
a column past line 1's ten bytes, and the valid request (line 2, column 3)
whose offset is 10 + 3. -/
theorem claim_C7_position_translation_witness :
    pick_node_at_loc demoEmptyCrate demoSM .Any "g.rs" 1 0 = .error .UnknownFile ∧
    pick_node_at_loc demoEmptyCrate demoSM .Any "f.rs" 0 0 = .error .LineOutOfRange ∧
    pick_node_at_loc demoEmptyCrate demoSM .Any "f.rs" 1 10 = .error .ColumnOutOfRange ∧
    pick_node_at_loc demoEmptyCrate demoSM .Any "f.rs" 2 3 =
      .ok (pick_node demoEmptyCrate .Any 13) := by
  refine ⟨?_, ?_, ?_, ?_⟩
  · exact (claim_C7_position_translation demoEmptyCrate demoSM .Any "g.rs" 1 0).1 rfl
  · exact ((claim_C7_position_translation demoEmptyCrate demoSM .Any "f.rs" 0 0).2
      { lineBounds := [(0, 10), (10, 25)] } rfl).1 (Or.inl rfl)
  · exact (((claim_C7_position_translation demoEmptyCrate demoSM .Any "f.rs" 1 10).2
      { lineBounds := [(0, 10), (10, 25)] } rfl).2 0 10 (by decide) rfl).1 (by omega)
  · exact (((claim_C7_position_translation demoEmptyCrate demoSM .Any "f.rs" 2 3).2
      { lineBounds := [(0, 10), (10, 25)] } rfl).2 10 25 (by decide) rfl).2 (by omega)
